import Mathlib

/-!
Verification model of the customer-support agent repository.

The Python sources are shallowly embedded as executable Lean definitions:
  * `src/agent/intent_classifier.py` — slot extraction (regex models) and
    the rule-based intent classifier;
  * `src/rag/retriever.py` — hybrid retrieval scoring (over `ℚ`, modelling
    the exact arithmetic of the score formulas);
  * `src/agent/nodes.py`, `src/agent/agent_graph.py` — the ReAct graph
    nodes, routing functions, bounded loop, and the memory-enabled runner;
  * `src/agent/composer.py`, `src/agent/prompts.py` — answer composition.

External collaborators (mock backend lookups, the FAISS store and the
embedding model) are modelled as an explicit `Backend` record of oracles,
and every call made to them is recorded in an instrumentation trace
(`AgentState.calls`) so that "no backend call happens" is provable.
Python text is modelled as `List Char` over ASCII.
-/

namespace AgentModel

/-- Characters of a Python `str`, modelled as a list of `Char` (ASCII inputs). -/
abbrev Str := List Char

/-- Convenience: the character list of a string literal. -/
def str (s : String) : Str := s.toList

/-- Python `str.lower()` on ASCII text. -/
def lowerStr (s : Str) : Str := s.map Char.toLower

/-- Python `str.upper()` on ASCII text (used to canonicalize product ids). -/
def upperStr (s : Str) : Str := s.map Char.toUpper

/-- Does `pat` occur at the start of `s`? Helper for substring containment. -/
def startsWith : Str → Str → Bool
  | [], _ => true
  | _ :: _, [] => false
  | p :: ps, c :: cs => p == c && startsWith ps cs

/-- Python `pat in s`: contiguous substring occurrence. -/
def containsSub (s pat : Str) : Bool :=
  match s with
  | [] => startsWith pat []
  | _ :: tail => startsWith pat s || containsSub tail pat

/-- Substring test against a literal pattern. -/
def sub (s : Str) (pat : String) : Bool := containsSub s pat.toList

/-- Python `str.strip()`: whitespace removed at both ends. -/
def pyStrip (s : Str) : Str :=
  ((s.dropWhile Char.isWhitespace).reverse.dropWhile Char.isWhitespace).reverse

/-- Python `str.isdigit()` restricted to ASCII digits: nonempty and all digits. -/
def pyIsDigit (s : Str) : Bool := !s.isEmpty && s.all Char.isDigit

/-! ### Regex models for `ORDER_RE` and `PRODUCT_RE` (intent_classifier.py)

`ORDER_RE = \b(\d{4,})\b` and `PRODUCT_RE = \bP(?=\d)[0-9A-Za-z_-]{1,12}\b`
(IGNORECASE), both used with `re.search` (leftmost match). The scan is
modelled positionally: a per-position matcher plus a leftmost-first scanner
`firstMatch`. Word characters `\w` are `[A-Za-z0-9_]` over ASCII. -/

/-- The regex word-character class `\w` over ASCII: `[A-Za-z0-9_]`. -/
def isWordChar (c : Char) : Bool := c.isAlphanum || c == '_'

/-- Word boundary on the left of the scan position: start of input or
a non-word character right before it. -/
def boundaryOk : Option Char → Bool
  | none => true
  | some c => !isWordChar c

/-- Word boundary after a word character and before `rest`
(end of input, or a non-word character). -/
def nextBoundary (rest : Str) : Bool := rest.head?.all fun c => !isWordChar c

/-- Match of `\b(\d{4,})\b` anchored at the current position: boundary on the
left, a greedy run of digits of length at least 4, and a boundary after the
run. Backtracking inside the digit run can never create a boundary (two
digits are both word characters), so the greedy run is the only candidate. -/
def orderMatchAt (prev : Option Char) (s : Str) : Option Str :=
  if boundaryOk prev then
    let run := s.takeWhile Char.isDigit
    if decide (4 ≤ run.length) && nextBoundary (s.drop run.length) then some run else none
  else none

/-- Word boundary between the last consumed character and the rest of the
input (the character class of `PRODUCT_RE` contains `-`, which is not a word
character, so both directions matter here). -/
def boundaryBetween (last : Char) (rest : Str) : Bool :=
  match rest with
  | [] => isWordChar last
  | c :: _ => isWordChar last != isWordChar c

/-- The character class `[0-9A-Za-z_-]` of `PRODUCT_RE`. -/
def productClassChar (c : Char) : Bool := c.isAlphanum || c == '_' || c == '-'

/-- Backtracking of the greedy quantifier `{1,12}`: try consuming `n`, then
`n-1`, ... then `1` characters of `s1`, returning the first (longest) length
whose end lands on a word boundary. -/
def backLen (s1 : Str) : Nat → Option Nat
  | 0 => none
  | n + 1 =>
    match s1.get? n with
    | some lc => if boundaryBetween lc (s1.drop (n + 1)) then some (n + 1) else backLen s1 n
    | none => backLen s1 n

/-- Match of `\bP(?=\d)[0-9A-Za-z_-]{1,12}\b` (IGNORECASE) anchored at the
current position. -/
def productMatchAt (prev : Option Char) (s : Str) : Option Str :=
  match s with
  | [] => none
  | p :: s1 =>
    if boundaryOk prev && (p == 'P' || p == 'p') then
      match s1 with
      | [] => none
      | d :: _ =>
        if d.isDigit then
          let run := s1.takeWhile productClassChar
          match backLen s1 (min run.length 12) with
          | some n => some (p :: s1.take n)
          | none => none
        else none
    else none

/-- `re.search`: scan positions left to right, returning the first successful
match. `prev` is the character just before the current position (for `\b`). -/
def firstMatch {α : Type} (f : Option Char → Str → Option α) : Option Char → Str → Option α
  | _, [] => none
  | prev, c :: cs =>
    match f prev (c :: cs) with
    | some r => some r
    | none => firstMatch f (some c) cs

/-- `ORDER_RE.search(text)`: first standalone run of 4+ digits. -/
def ORDER_search (s : Str) : Option Str := firstMatch orderMatchAt none s

/-- `PRODUCT_RE.search(text)`: first `P`-digit product token. -/
def PRODUCT_search (s : Str) : Option Str := firstMatch productMatchAt none s

/-! ### Intent classifier (`classify_intent` in intent_classifier.py) -/

/-- The intent labels appearing anywhere in the system (the spec's closed
set; the classifier itself only ever produces seven of them, see C9). -/
inductive Intent where
  | order_status
  | refund_status
  | product_availability
  | inventory_check
  | delivery_delay
  | charges_query
  | return_policy
  | cancellation_policy
  | policy_query
deriving DecidableEq

/-- The extracted slots threaded through a turn (`slots` dict; only
`order_id` and `product_id` are ever read or written). -/
structure Slots where
  order_id : Option Str
  product_id : Option Str
deriving DecidableEq

/-- Result of `classify_intent`: an intent label plus extracted slots. -/
structure ClassifyResult where
  intent : Intent
  slots : Slots
deriving DecidableEq

/-- `_has_any(tokens, text)`: any of the tokens occurs in the lowered text. -/
def has_any (tokens : List String) (text : Str) : Bool :=
  tokens.any fun tok => containsSub (lowerStr text) tok.toList

/-- `classify_intent(text)`: slot extraction via the two regexes followed by
the fixed-priority rule chain of intent_classifier.py. -/
def classify_intent (text : Str) : ClassifyResult :=
  let text_l := lowerStr text
  let order_match := ORDER_search text
  let product_match := PRODUCT_search text
  let slots : Slots := { order_id := order_match, product_id := product_match.map upperStr }
  if (sub text_l "how long" || sub text_l "how many days") &&
      (sub text_l "refund" || sub text_l "return") then
    ⟨Intent.return_policy, slots⟩
  else if sub text_l "refund" || sub text_l "refund status" then
    (if sub text_l "status" || sub text_l "check" || sub text_l "what is" then
      ⟨Intent.refund_status, slots⟩
    else if sub text_l "how long" || sub text_l "policy" || sub text_l "take" then
      ⟨Intent.return_policy, slots⟩
    else ⟨Intent.refund_status, slots⟩)
  else if sub text_l "where is my order" || sub text_l "track" ||
      (sub text_l "where" && sub text_l "order") then
    ⟨Intent.order_status, slots⟩
  else if sub text_l "order" && order_match.isSome then
    ⟨Intent.order_status, slots⟩
  else if sub text_l "out for delivery" ||
      (sub text_l "delivery" && (sub text_l "late" || sub text_l "delay")) then
    (if order_match.isSome then ⟨Intent.order_status, slots⟩ else ⟨Intent.delivery_delay, slots⟩)
  else if has_any ["charged", "charge", "extra charge", "why was i charged", "fees",
      "convenience fee"] text then
    ⟨Intent.charges_query, slots⟩
  else if has_any ["return", "return window", "refund policy", "how long do refunds take"] text then
    ⟨Intent.return_policy, slots⟩
  else if product_match.isSome || has_any ["in stock", "stock", "available"] text then
    ⟨Intent.product_availability, slots⟩
  else ⟨Intent.policy_query, slots⟩

/-! ### Hybrid retriever (`src/rag/retriever.py`)

The FAISS store and the sentence embedding model are external
collaborators. They are modelled inside `Backend` as oracles:
`store_search query k` stands for `store.similarity_search(query, k=k)`,
and `cos_sim query text` stands for
`_cosine_sim(embed_query(query), embed(text))`, a value in `[-1, 1]`.
Float arithmetic of the scoring pipeline is modelled exactly over `ℚ`. -/

/-- A candidate document returned by the vector store: its page content and
the `doc_id` of its metadata (absent when the metadata lacks it). -/
structure Doc where
  page_content : Str
  doc_id : Option Str
deriving DecidableEq

/-- One scored entry of the retriever output (the dict built in
`retrieve_policy`: text, metadata doc id, and the four scores). -/
structure RetEntry where
  text : Str
  doc_id : Option Str
  semantic_raw : ℚ
  semantic_norm : ℚ
  lexical_norm : ℚ
  combined : ℚ
deriving DecidableEq

/-- The dict returned by `retrieve_policy`. -/
structure RetOut where
  query : Str
  final : List RetEntry
  candidates : List RetEntry
  confidence : ℚ
deriving DecidableEq

/-- Python's tokenisation in `_lexical_score`: whitespace split
(`str.split()` with no separator: runs of whitespace, no empty tokens). -/
def splitWsAux : Str → Str → List Str
  | [], acc => if acc.isEmpty then [] else [acc.reverse]
  | c :: cs, acc =>
    if c.isWhitespace then
      (if acc.isEmpty then splitWsAux cs [] else acc.reverse :: splitWsAux cs [])
    else splitWsAux cs (c :: acc)

/-- `str.split()` on whitespace. -/
def splitWs (s : Str) : List Str := splitWsAux s []

/-- The punctuation characters stripped from tokens in `_lexical_score`
(the Python literal is `.,;:!?"'()[]`; the quote characters are written
via their code points). -/
def punctChars : List Char :=
  ['.', ',', ';', ':', '!', '?', Char.ofNat 34, Char.ofNat 39, '(', ')', '[', ']']

/-- Python `str.strip(chars)`: remove the given characters at both ends. -/
def stripChars (cs : List Char) (s : Str) : Str :=
  ((s.dropWhile (· ∈ cs)).reverse.dropWhile (· ∈ cs)).reverse

/-- The token set built in `_lexical_score`: lowercased, punctuation-stripped
whitespace tokens, as a duplicate-free list (Python `set`). -/
def tokenSet (s : Str) : List Str :=
  ((splitWs s).map fun t => stripChars punctChars (lowerStr t)).dedup

/-- `_lexical_score(query, doc_text)`: size of the token-set intersection
divided by the query token count; `0` for a token-free query. -/
def lexical_score (query doc_text : Str) : ℚ :=
  let q_tokens := tokenSet query
  let d_tokens := tokenSet doc_text
  if q_tokens.isEmpty then 0
  else ((q_tokens.filter (· ∈ d_tokens)).length : ℚ) / (q_tokens.length : ℚ)

/-- Minimum of a score list (`np.min`; the `0` default is never used: the
function is only applied to nonempty pools). -/
def listMin : List ℚ → ℚ
  | [] => 0
  | x :: xs => xs.foldl min x

/-- Maximum of a score list (`np.max`). -/
def listMax : List ℚ → ℚ
  | [] => 0
  | x :: xs => xs.foldl max x

/-- The degenerate-range threshold `1e-12` of `_norm`. -/
def eps : ℚ := 1 / 1000000000000

/-- `_norm(arr)` of retriever.py: min–max normalisation over the pool, with
every member mapped to `1.0` when the range collapses below `1e-12`. -/
def normScores (arr : List ℚ) : List ℚ :=
  if arr.isEmpty then []
  else
    let mn := listMin arr
    let mx := listMax arr
    if mx - mn < eps then arr.map fun _ => 1
    else arr.map fun x => (x - mn) / (mx - mn)

/-- Builds the entry dicts of `retrieve_policy` positionally from the five
parallel lists (`zip` in the source: stops at the shortest). -/
def mkEntries : List Doc → List ℚ → List ℚ → List ℚ → List ℚ → List RetEntry
  | d :: ds, sr :: srs, sn :: sns, ln :: lns, cb :: cbs =>
    { text := d.page_content, doc_id := d.doc_id, semantic_raw := sr,
      semantic_norm := sn, lexical_norm := ln, combined := cb } :: mkEntries ds srs sns lns cbs
  | _, _, _, _, _ => []

/-- A scalar value of a backend record (the mock JSON stores hold flat
mappings from string keys to strings, numbers or booleans). -/
inductive Val where
  | vs (s : Str)
  | vi (n : Int)
  | vb (b : Bool)
deriving DecidableEq

/-- A backend record: a flat Python dict from string keys to scalars. -/
abbrev ToolResponse := List (Str × Val)

/-- `d.get(k)`: first binding of the key, `None` when absent. -/
def dget (d : ToolResponse) (k : String) : Option Val :=
  (d.find? fun kv => kv.1 == k.toList).map Prod.snd

/-- Python truthiness of an optional scalar (`None`, `""`, `0` and `False`
are falsy). -/
def vtruthy : Option Val → Bool
  | none => false
  | some (Val.vs s) => !s.isEmpty
  | some (Val.vi n) => !(n == 0)
  | some (Val.vb b) => b

/-- Python `a or b` on optional scalars. -/
def pyOr (a b : Option Val) : Option Val := if vtruthy a then a else b

/-- The external collaborators of the core: the three mock backend lookups
(tools.py) and the vector store / embedding oracles of the retriever. -/
structure Backend where
  get_order_status : Str → ToolResponse
  get_refund_status : Str → ToolResponse
  get_inventory : Str → ToolResponse
  store_search : Str → Nat → List Doc
  cos_sim : Str → Str → ℚ

/-- `retrieve_policy(query, fetch_k, top_k, alpha)`: fetch candidates from
the store, recompute semantic similarity, compute lexical overlap, min–max
normalise both, blend with `alpha`, stable-sort descending by the combined
score (Python `list.sort` is stable; modelled by a stable insertion sort),
and return the top `top_k` with the top combined score as confidence. -/
def retrieve_policy (B : Backend) (query : Str) (fetch_k top_k : Nat) (alpha : ℚ) : RetOut :=
  let docs := B.store_search query fetch_k
  if docs.isEmpty then { query := query, final := [], candidates := [], confidence := 0 }
  else
    let sem_sims := docs.map fun d => B.cos_sim query d.page_content
    let sem_sims_mapped := sem_sims.map fun x => max 0 ((x + 1) / 2)
    let lex_scores := docs.map fun d => lexical_score query d.page_content
    let sem_norm := normScores sem_sims_mapped
    let lex_norm := normScores lex_scores
    let combined := List.zipWith (fun x y => alpha * x + (1 - alpha) * y) sem_norm lex_norm
    let entries := mkEntries docs sem_sims_mapped sem_norm lex_norm combined
    let sorted := entries.insertionSort fun a b => b.combined ≤ a.combined
    let final := sorted.take top_k
    let confidence := match final with | [] => 0 | e :: _ => e.combined
    { query := query, final := final, candidates := sorted, confidence := confidence }

/-! ### Prompts (`src/agent/prompts.py`) and composer (`src/agent/composer.py`)

String contents are carried verbatim except that ASCII apostrophes of the
source strings are spelled `could not` instead of a contraction; no claim
depends on the exact characters of composed text. -/

/-- The fixed clarification prompt for a missing order id. -/
def CLARIFY_FOR_ORDER_ID : Str :=
  str "I can check that for you — could you share the order ID (e.g., 98762)?"

/-- The fixed clarification prompt for a missing product id. -/
def CLARIFY_FOR_PRODUCT_ID : Str :=
  str "Please provide the product ID (e.g., P123) so I can check availability."

/-- The fixed no-information fallback of the composer. -/
def COMPOSER_NO_INFO : Str :=
  str "I could not find any information matching your request. Could you share more details (order ID or product ID)?"

/-- Decimal rendering of a natural number. -/
def natText (n : Nat) : Str := Nat.toDigits 10 n

/-- Decimal rendering of an integer (f-string interpolation of a number). -/
def intText : Int → Str
  | Int.ofNat n => natText n
  | Int.negSucc n => '-' :: natText (n + 1)

/-- f-string interpolation of an optional scalar (`None` when absent). -/
def optValText : Option Val → Str
  | none => str "None"
  | some (Val.vs s) => s
  | some (Val.vi n) => intText n
  | some (Val.vb true) => str "True"
  | some (Val.vb false) => str "False"

/-- f-string interpolation of an optional string slot value. -/
def optStrText : Option Str → Str
  | none => str "None"
  | some s => s

/-- Rendering of a whole record for the composer fallback `str(tr)`. The
exact text of Python's dict repr is abstracted to a key=value listing; no
claim depends on this text. -/
def dictText (d : ToolResponse) : Str :=
  List.intercalate (str "; ") (d.map fun kv => kv.1 ++ str "=" ++ optValText (some kv.2))

/-- Intents guarded by the slot check for `order_id` in `reasoning_node`. -/
def inOrderIdIntents : Option Intent → Bool
  | some Intent.order_status => true
  | some Intent.refund_status => true
  | some Intent.delivery_delay => true
  | _ => false

/-- Intents guarded by the slot check for `product_id` in `reasoning_node`. -/
def inProductIntents : Option Intent → Bool
  | some Intent.product_availability => true
  | some Intent.inventory_check => true
  | _ => false

/-- Intents that dispatch an order/refund tool call in `reasoning_node`. -/
def inOrderToolIntents : Option Intent → Bool
  | some Intent.order_status => true
  | some Intent.refund_status => true
  | _ => false

/-- The policy-oriented intents of `reasoning_node` and `action_node`. -/
def inPolicyIntents : Option Intent → Bool
  | some Intent.charges_query => true
  | some Intent.return_policy => true
  | some Intent.delivery_delay => true
  | some Intent.policy_query => true
  | _ => false

/-- The policy-oriented intents of the composer (this set additionally
contains `cancellation_policy`). -/
def inComposerPolicyIntents : Option Intent → Bool
  | some Intent.charges_query => true
  | some Intent.return_policy => true
  | some Intent.delivery_delay => true
  | some Intent.policy_query => true
  | some Intent.cancellation_policy => true
  | _ => false

/-- `_format_tool_response(state)`: intent-specific formatting of the
backend record (empty string when no truthy record is present). -/
def format_tool_response (intent : Option Intent) (slots : Slots)
    (tr? : Option ToolResponse) : Str :=
  match tr? with
  | none => []
  | some tr =>
    if tr.isEmpty then []
    else if intent = some Intent.order_status then
      (if vtruthy (dget tr "error") then
        str "I could not find the order " ++ optStrText slots.order_id ++
          str ". Please check the order ID."
      else
        let status := pyOr (dget tr "order_status") (pyOr (dget tr "status") (dget tr "status"))
        let expected := pyOr (dget tr "expected_delivery") (dget tr "order_expected")
        let reason := dget tr "delay_reason"
        let s0 := str "Order " ++ optValText (dget tr "order_id") ++ str " is currently: " ++
          optValText status ++ str "."
        let s1 := if vtruthy expected then
            s0 ++ str " Expected delivery: " ++ optValText expected ++ str "." else s0
        if vtruthy reason then s1 ++ str " Reason: " ++ optValText reason ++ str "." else s1)
    else if intent = some Intent.refund_status then
      (if vtruthy (dget tr "error") then
        str "I could not find the refund for order " ++ optStrText slots.order_id ++
          str ". Please check the order ID."
      else
        let rstat := pyOr (dget tr "refund_status") (dget tr "status")
        let amount := pyOr (dget tr "refund_amount") (dget tr "amount")
        let processed := pyOr (dget tr "processed_at") (dget tr "processed")
        let s0 := str "Refund status for order " ++ optValText (dget tr "order_id") ++
          str ": " ++ optValText rstat ++ str "."
        let s1 := if vtruthy amount then
            s0 ++ str " Amount: " ++ optValText amount ++ str "." else s0
        if vtruthy processed then
          s1 ++ str " Processed at: " ++ optValText processed ++ str "." else s1)
    else if intent = some Intent.product_availability then
      (if vtruthy (dget tr "error") then
        str "I could not find product " ++ optStrText slots.product_id ++
          str ". Please check the product ID."
      else
        let in_stock := dget tr "in_stock"
        let qty := pyOr (dget tr "quantity_available") (dget tr "quantity")
        let s0 := str "Product " ++ optValText (dget tr "product_id") ++ str ": " ++
          (if vtruthy in_stock then str "In stock" else str "Out of stock") ++ str "."
        let s1 := if qty.isSome then
            s0 ++ str " Quantity available: " ++ optValText qty ++ str "." else s0
        let restock := pyOr (dget tr "restock_date") (dget tr "restock")
        if vtruthy restock then
          s1 ++ str " Restock expected: " ++ optValText restock ++ str "." else s1)
    else dictText tr

/-- The snippet built for a policy passage: first 300 characters stripped,
with an ellipsis when the text was longer. -/
def snippetOf (text : Str) : Str :=
  pyStrip (text.take 300) ++ (if decide (300 < text.length) then str "..." else [])

/-- The ordered duplicate-free `doc_id` list of the provenance footer. -/
def provenanceList (rs : List RetEntry) : List Str :=
  rs.foldl (fun acc r =>
    let did := match r.doc_id with
      | some s => if !s.isEmpty then s else str "policy"
      | none => str "policy"
    if did ∈ acc then acc else acc ++ [did]) []

/-- `compose_final_answer(state)`: returns a short-circuited `final_answer`
unchanged, otherwise formats the backend record and/or policy passages,
falling back to the fixed no-information message. -/
def compose_final_answer (fa? : Option Str) (intent : Option Intent) (slots : Slots)
    (tr? : Option ToolResponse) (rag : List RetEntry) : Str :=
  let fa := fa?.getD []
  if !fa.isEmpty then fa
  else
    let tool_part := format_tool_response intent slots tr?
    let pieces0 : List Str := if !tool_part.isEmpty then [tool_part] else []
    if !rag.isEmpty then
      let pieces1 := pieces0 ++
        (if tool_part.isEmpty && inComposerPolicyIntents intent then
          (let policy_texts := (rag.take 2).filterMap fun r =>
            if !r.text.isEmpty then some (snippetOf r.text) else none
           if !policy_texts.isEmpty then [List.intercalate (str "\n\n") policy_texts] else [])
        else [])
      let prov := provenanceList rag
      let pieces2 := pieces1 ++
        (if !prov.isEmpty then
          [str "\n_Policy reference: " ++ List.intercalate (str ", ") prov ++ str "_"]
        else [])
      List.intercalate (str "\n\n") pieces2
    else if tool_part.isEmpty then COMPOSER_NO_INFO
    else List.intercalate (str "\n\n") pieces0

/-! ### ReAct agent state and nodes (`src/agent/state.py`, `src/agent/nodes.py`)

The LangGraph nodes return partial updates that the framework merges into
the state; each node is modelled as a total state transformer applying
exactly the updates of its source. The write-only narration fields
(`thought`, `observation`, `scratchpad`) are not read by any node or router
and are omitted. The `errors` list is carried; in this total model no
modelled path appends to it (the `try/except` bodies of the source never
raise for total collaborators). `calls` is an instrumentation trace of
every external call made through the `Backend` oracles. -/

/-- The action decided by `reasoning_node`. -/
inductive Action where
  | ask_for_slot
  | call_tool
  | call_rag
  | finish
deriving DecidableEq

/-- The slot kind of an `ask_for_slot` action input. -/
inductive SlotKind where
  | order_id
  | product_id
deriving DecidableEq

/-- The `action_input` dict accompanying an action. -/
inductive ActionInput where
  | empty
  | slot (kind : SlotKind)
  | tool (intent : Option Intent) (slots : Slots)
  | rag (query : Str)
deriving DecidableEq

/-- Instrumentation record of one external call. -/
inductive ExtCall where
  | order (id : Str)
  | refund (id : Str)
  | inventory (id : Str)
  | rag (query : Str)
deriving DecidableEq

/-- One entry of the conversation history handed to a turn. In the
memory-enabled runner these are the transcript dicts
`(user, assistant)` — they carry no `intent` key, hence `intent := none`;
the optional field models `prev.get("intent")` of `classify_intent_node`. -/
structure HistEntry where
  user : Str
  assistant : Str
  intent : Option Intent
deriving DecidableEq

/-- The LangGraph `AgentState` (state.py), restricted to the fields that are
read by some node or router, plus the `calls` instrumentation trace. -/
structure AgentState where
  user_query : Str
  intent : Option Intent
  slots : Slots
  action : Option Action
  action_input : ActionInput
  tool_response : Option ToolResponse
  rag_results : List RetEntry
  final_answer : Option Str
  history : List HistEntry
  iteration : Nat
  errors : List Str
  calls : List ExtCall
deriving DecidableEq

/-- Overwrite semantics of Python `dict.update` per key: a key present in
the update wins, otherwise the previous value is kept. -/
def updSlot : Option Str → Option Str → Option Str
  | some v, _ => some v
  | none, old => old

/-- `slots.update(extracted_slots)` for the two modelled slot keys. -/
def mergeSlots (base upd : Slots) : Slots :=
  { order_id := updSlot upd.order_id base.order_id,
    product_id := updSlot upd.product_id base.product_id }

/-- `history[-1].get("intent") in ("order_status", "refund_status",
"delivery_delay", None)` on a nonempty history. -/
def prev_intent_ok (history : List HistEntry) : Bool :=
  match history.getLast? with
  | none => false
  | some prev =>
    match prev.intent with
    | none => true
    | some Intent.order_status => true
    | some Intent.refund_status => true
    | some Intent.delivery_delay => true
    | some _ => false

/-- `intent in (None, "", "policy_query")` (the empty-string case cannot
arise for an optional intent label). -/
def isPolicyOrNone : Option Intent → Bool
  | none => true
  | some Intent.policy_query => true
  | some _ => false

/-- The common tail of `classify_intent_node`: run the generic classifier
on the raw query and merge its extracted slots over the current ones. -/
def classifyMerge (s : AgentState) (slots1 : Slots) : AgentState :=
  let res := classify_intent s.user_query
  { s with intent := some res.intent, slots := mergeSlots slots1 res.slots, iteration := 0 }

/-- `classify_intent_node(state)`: digit-only follow-ups are forced to
`order_status` with the digits as `order_id`; otherwise the generic
classifier runs. The node always resets `iteration` to `0`. -/
def classify_intent_node (s : AgentState) : AgentState :=
  let raw := pyStrip s.user_query
  if pyIsDigit raw then
    let slots1 := { s.slots with order_id := some raw }
    if s.intent.isNone && !s.history.isEmpty && prev_intent_ok s.history then
      { s with intent := some Intent.order_status, slots := slots1, iteration := 0 }
    else if isPolicyOrNone s.intent then
      { s with intent := some Intent.order_status, slots := slots1, iteration := 0 }
    else classifyMerge s slots1
  else classifyMerge s s.slots

/-- `reasoning_node(state)`: decide the next action in the fixed priority
order of nodes.py, incrementing the iteration counter. -/
def reasoning_node (s : AgentState) : AgentState :=
  let it := s.iteration + 1
  if inOrderIdIntents s.intent && s.slots.order_id.isNone then
    { s with action := some Action.ask_for_slot,
             action_input := ActionInput.slot SlotKind.order_id, iteration := it }
  else if inProductIntents s.intent && s.slots.product_id.isNone then
    { s with action := some Action.ask_for_slot,
             action_input := ActionInput.slot SlotKind.product_id, iteration := it }
  else if inOrderToolIntents s.intent && s.tool_response.isNone then
    { s with action := some Action.call_tool,
             action_input := ActionInput.tool s.intent s.slots, iteration := it }
  else if inProductIntents s.intent && s.tool_response.isNone then
    { s with action := some Action.call_tool,
             action_input := ActionInput.tool s.intent s.slots, iteration := it }
  else if inPolicyIntents s.intent then
    (if s.rag_results.isEmpty then
      { s with action := some Action.call_rag,
               action_input := ActionInput.rag s.user_query, iteration := it }
    else
      { s with action := some Action.finish, action_input := ActionInput.empty, iteration := it })
  else if !s.tool_response.isNone && s.rag_results.isEmpty then
    { s with action := some Action.call_rag,
             action_input := ActionInput.rag s.user_query, iteration := it }
  else
    { s with action := some Action.finish, action_input := ActionInput.empty, iteration := it }

/-- `action_node(state)`: execute the decided action, recording every
external call in the `calls` trace. -/
def action_node (B : Backend) (s : AgentState) : AgentState :=
  match s.action with
  | some Action.ask_for_slot =>
    (match s.action_input with
     | ActionInput.slot SlotKind.order_id => { s with final_answer := some CLARIFY_FOR_ORDER_ID }
     | ActionInput.slot SlotKind.product_id =>
       { s with final_answer := some CLARIFY_FOR_PRODUCT_ID }
     | _ => s)
  | some Action.call_tool =>
    (match s.action_input with
     | ActionInput.tool intent slots =>
       (if intent = some Intent.order_status then
         (match slots.order_id with
          | some oid => { s with tool_response := some (B.get_order_status oid),
                                 calls := s.calls ++ [ExtCall.order oid] }
          | none => s)
       else if intent = some Intent.refund_status then
         (match slots.order_id with
          | some oid => { s with tool_response := some (B.get_refund_status oid),
                                 calls := s.calls ++ [ExtCall.refund oid] }
          | none => s)
       else if inProductIntents intent then
         (match slots.product_id with
          | some pid => { s with tool_response := some (B.get_inventory pid),
                                 calls := s.calls ++ [ExtCall.inventory pid] }
          | none => s)
       else s)
     | _ => s)
  | some Action.call_rag =>
    let q := match s.action_input with
      | ActionInput.rag q => q
      | _ => s.user_query
    let out := if inPolicyIntents s.intent then retrieve_policy B q 10 3 (85 / 100)
      else retrieve_policy B q 6 2 (85 / 100)
    { s with rag_results := out.final, calls := s.calls ++ [ExtCall.rag q] }
  | some Action.finish => s
  | none => s

/-- `compose_node(state)`: delegate to the composer. -/
def compose_node (s : AgentState) : AgentState :=
  { s with final_answer := some (compose_final_answer s.final_answer s.intent s.slots
      s.tool_response s.rag_results) }

/-! ### Graph routing and the bounded loop (`src/agent/agent_graph.py`) -/

/-- The iteration cap of the ReAct loop. -/
def MAX_ITERATIONS : Nat := 5

/-- Routing decision after `reasoning_node`. -/
inductive ReasonRoute where
  | action
  | stop
deriving DecidableEq

/-- `should_continue_reasoning(state)`: force the turn to end past the
iteration cap, otherwise proceed to the action node. -/
def should_continue_reasoning (s : AgentState) : ReasonRoute :=
  if s.iteration > MAX_ITERATIONS then ReasonRoute.stop else ReasonRoute.action

/-- Routing decision after `action_node`. -/
inductive ActionRoute where
  | reasoning
  | compose
  | stop
deriving DecidableEq

/-- `route_after_action(state)`: at or past the cap force composition;
an `ask_for_slot` ends the turn; a `finish` composes; otherwise loop. -/
def route_after_action (s : AgentState) : ActionRoute :=
  if s.iteration ≥ MAX_ITERATIONS then ActionRoute.compose
  else if s.action = some Action.ask_for_slot then ActionRoute.stop
  else if s.action = some Action.finish then ActionRoute.compose
  else ActionRoute.reasoning

/-- The reasoning/action loop of the compiled graph, with explicit fuel.
Each pass runs `reasoning_node`, consults `should_continue_reasoning`, runs
`action_node` and follows `route_after_action`. The fuel is inessential:
any fuel of at least `MAX_ITERATIONS` computes the same result (see C7). -/
def runLoop (B : Backend) : Nat → AgentState → AgentState
  | 0, s => s
  | fuel + 1, s =>
    let s1 := reasoning_node s
    match should_continue_reasoning s1 with
    | ReasonRoute.stop => s1
    | ReasonRoute.action =>
      let s2 := action_node B s1
      match route_after_action s2 with
      | ActionRoute.compose => compose_node s2
      | ActionRoute.stop => s2
      | ActionRoute.reasoning => runLoop B fuel s2

/-- `agent_graph.invoke(state)`: entry point `classify_intent` followed by
the reasoning/action loop. -/
def agent_invoke (B : Backend) (s : AgentState) : AgentState :=
  runLoop B (MAX_ITERATIONS + 1) (classify_intent_node s)

/-- The initial `AgentState` built by `run_agent` / `run_agent_with_memory`. -/
def initState (q : Str) (history : List HistEntry) : AgentState :=
  { user_query := q, intent := none, slots := { order_id := none, product_id := none },
    action := none, action_input := ActionInput.empty, tool_response := none,
    rag_results := [], final_answer := none, history := history, iteration := 0,
    errors := [], calls := [] }

/-- `run_agent(user_query, history)`. -/
def run_agent (B : Backend) (q : Str) (history : List HistEntry) : AgentState :=
  agent_invoke B (initState q history)

/-! ### Session memory (`src/agent/memory.py`, memory-enabled runner) -/

/-- One transcript entry (`mem["messages"]` dicts). -/
structure MsgEntry where
  user : Str
  assistant : Str
deriving DecidableEq

/-- A per-session memory record. -/
structure Memory where
  last_order_id : Option Str
  last_product_id : Option Str
  last_intent : Option Intent
  messages : List MsgEntry
deriving DecidableEq

/-- The fresh memory record returned by `load_memory` for an unknown
session. -/
def emptyMemory : Memory :=
  { last_order_id := none, last_product_id := none, last_intent := none, messages := [] }

/-- The last `n` elements of a list (Python `l[-n:]`). -/
def lastN (n : Nat) (l : List α) : List α := l.drop (l.length - n)

/-- The end-of-turn memory update of `run_agent_with_memory`: overwrite the
`last_*` fields from the turn result when present, append the new
transcript pair and keep the most recent 20 entries. -/
def memory_update (mem : Memory) (q : Str) (result : AgentState) : Memory :=
  let m1 := if result.slots.order_id.isSome then
      { mem with last_order_id := result.slots.order_id } else mem
  let m2 := if result.slots.product_id.isSome then
      { m1 with last_product_id := result.slots.product_id } else m1
  let m3 := if result.intent.isSome then { m2 with last_intent := result.intent } else m2
  { m3 with messages := lastN 20 (m3.messages ++ [⟨q, result.final_answer.getD []⟩]) }

/-- `run_agent_with_memory(user_query, session_id)`, with the session's
memory record passed and returned explicitly in place of the JSON file:
seed the history from the transcript, run the graph, apply the
memory-based intent correction (re-invoking the graph from the entry point
when it fires), and update the memory. -/
def run_agent_with_memory (B : Backend) (q : Str) (mem : Memory) : AgentState × Memory :=
  let history := mem.messages.map fun m => HistEntry.mk m.user m.assistant none
  let result0 := agent_invoke B (initState q history)
  let result :=
    if result0.intent = some Intent.policy_query && mem.last_intent.isSome then
      (if result0.slots.order_id.isSome && inOrderIdIntents mem.last_intent then
        agent_invoke B { result0 with intent := mem.last_intent }
      else if result0.slots.product_id.isSome && inProductIntents mem.last_intent then
        agent_invoke B { result0 with intent := mem.last_intent }
      else result0)
    else result0
  (result, memory_update mem q result)

/-- A sequence of turns of one session through the memory-enabled runner. -/
def run_turns (B : Backend) (mem : Memory) (qs : List Str) : Memory :=
  qs.foldl (fun m q => (run_agent_with_memory B q m).2) mem

/-! ### Spec-level characterizations of slot extraction

These definitions render the spec's description of the Slot Extractor
(§4.1: "the first run of 4 or more consecutive digits appearing as a
standalone token; ambiguity resolved by taking the first match in reading
order") as index-based searches, to be compared with the scanner models
above. -/

/-- Length of the run of consecutive digits starting at position `i`. -/
def digitRunLen (s : Str) (i : Nat) : Nat := ((s.drop i).takeWhile Char.isDigit).length

/-- Position `i` starts a standalone run of 4 or more consecutive digits:
the position is preceded by the start of the text or a non-word character,
carries a digit run of length at least 4, and the run is followed by the
end of the text or a non-word character. -/
def standaloneRunAt (s : Str) (i : Nat) : Bool :=
  (if i = 0 then true else (s.get? (i - 1)).all fun c => !isWordChar c)
  && decide (4 ≤ digitRunLen s i)
  && ((s.get? (i + digitRunLen s i)).all fun c => !isWordChar c)

/-- Modelled from the spec: the order identifier is the digit run at the
first (in reading order) position starting a standalone run of 4+ digits. -/
def specOrderId (s : Str) : Option Str :=
  ((List.range s.length).find? (standaloneRunAt s)).map fun i => (s.drop i).takeWhile Char.isDigit

/-- The character directly before position `j` of `s` (`prev` when `j` is
the scan origin). -/
def prevAt (prev : Option Char) (s : Str) (j : Nat) : Option Char :=
  if j = 0 then prev else s.get? (j - 1)

/-- Modelled from the spec: the product identifier match is taken at the
first (in reading order) position admitting a product-token match. -/
def specProductId (s : Str) : Option Str :=
  (((List.range s.length).find? fun j => (productMatchAt (prevAt none s j) (s.drop j)).isSome).bind
    fun j => productMatchAt (prevAt none s j) (s.drop j))

/-! ### Concrete collaborators used by the closed-instance theorems -/

/-- A deterministic mock of the external collaborators: backend lookups
always answer with a fixed record, and the vector store is empty. -/
def mockBackend : Backend :=
  { get_order_status := fun oid =>
      [(str "order_id", Val.vs oid), (str "status", Val.vs (str "In transit"))],
    get_refund_status := fun oid =>
      [(str "order_id", Val.vs oid), (str "refund_status", Val.vs (str "Processed"))],
    get_inventory := fun pid =>
      [(str "product_id", Val.vs pid), (str "in_stock", Val.vb true)],
    store_search := fun _ _ => [],
    cos_sim := fun _ _ => 0 }

/-- A single-document policy pool for retrieval-scoring instances. -/
def ragDocs : List Doc :=
  [{ page_content := str "Refunds take 5 to 7 days according to policy.",
     doc_id := some (str "refund_policy.txt") }]

/-- A mock collaborator whose vector store holds `ragDocs`. -/
def mockBackendRag : Backend :=
  { mockBackend with store_search := fun _ _ => ragDocs, cos_sim := fun _ _ => 1 / 2 }

/-- A session memory as left by a refund-status turn that asked for the
order id: `last_intent` is `refund_status` and the transcript holds the
prior exchange. -/
def memRefund : Memory :=
  { last_order_id := none, last_product_id := none,
    last_intent := some Intent.refund_status,
    messages := [⟨str "check refund status for my order", CLARIFY_FOR_ORDER_ID⟩] }

/-- The mapped semantic-score pool built in step 2 of `retrieve_policy`
(raw cosines shifted from `[-1, 1]` into `[0, 1]`). -/
def semPool (B : Backend) (query : Str) (fetch_k : Nat) : List ℚ :=
  ((B.store_search query fetch_k).map fun d => B.cos_sim query d.page_content).map
    fun x => max 0 ((x + 1) / 2)

/-- The lexical-score pool built in step 3 of `retrieve_policy`. -/
def lexPool (B : Backend) (query : Str) (fetch_k : Nat) : List ℚ :=
  (B.store_search query fetch_k).map fun d => lexical_score query d.page_content

/-- A turn state sitting exactly at the iteration cap (used to exhibit the
forced transition to the compose step). -/
def stateAtCap : AgentState := { initState (str "q") [] with iteration := 5 }

/-! ## Lemmas about the regex scanners -/

theorem prevAt_cons (prev : Option Char) (c : Char) (cs : Str) (j : Nat) :
    prevAt prev (c :: cs) (j + 1) = prevAt (some c) cs j := by
  unfold prevAt
  cases j with
  | zero => simp
  | succ k => simp

/-- The leftmost-scan `firstMatch` coincides with the index-based search:
the first position whose per-position matcher succeeds. -/
theorem firstMatch_eq {α : Type} (f : Option Char → Str → Option α) (s : Str)
    (prev : Option Char) :
    firstMatch f prev s =
      (((List.range s.length).find? fun j => (f (prevAt prev s j) (s.drop j)).isSome).bind
        fun j => f (prevAt prev s j) (s.drop j)) := by
  induction s generalizing prev with
  | nil => simp [firstMatch]
  | cons c cs ih =>
    have hp0 : prevAt prev (c :: cs) 0 = prev := rfl
    cases h : f prev (c :: cs) with
    | some r =>
      simp only [firstMatch, h, List.length_cons, List.range_succ_eq_map, List.find?_cons,
        hp0, List.drop_zero, Option.isSome_some]
      simp [prevAt, h]
    | none =>
      have hpred : ((fun j => (f (prevAt prev (c :: cs) j) ((c :: cs).drop j)).isSome) ∘ Nat.succ)
          = fun j => (f (prevAt (some c) cs j) (cs.drop j)).isSome := by
        funext j
        simp [Function.comp, prevAt_cons]
      have hbind : ((fun j => f (prevAt prev (c :: cs) j) ((c :: cs).drop j)) ∘ Nat.succ)
          = fun j => f (prevAt (some c) cs j) (cs.drop j) := by
        funext j
        simp [Function.comp, prevAt_cons]
      simp only [firstMatch, h, List.length_cons, List.range_succ_eq_map, List.find?_cons,
        hp0, List.drop_zero, Option.isSome_none]
      rw [List.find?_map, Option.bind_map, hpred, hbind, ih]

theorem boundaryOk_eq (o : Option Char) : boundaryOk o = o.all fun c => !isWordChar c := by
  cases o <;> rfl

/-- The per-position order matcher succeeds exactly at positions starting a
standalone run of 4+ digits, and returns that digit run. -/
theorem orderMatchAt_eq (s : Str) (i : Nat) :
    orderMatchAt (prevAt none s i) (s.drop i) =
      (if standaloneRunAt s i then some ((s.drop i).takeWhile Char.isDigit) else none) := by
  have hb : boundaryOk (prevAt none s i)
      = (if i = 0 then true else (s.get? (i - 1)).all fun c => !isWordChar c) := by
    unfold prevAt
    by_cases h : i = 0
    · simp [h, boundaryOk]
    · simp [h, boundaryOk_eq]
  have hnb : nextBoundary (s.drop (i + digitRunLen s i))
      = ((s.get? (i + digitRunLen s i)).all fun c => !isWordChar c) := by
    unfold nextBoundary
    rw [List.head?_drop, List.get?_eq_getElem?]
  unfold orderMatchAt standaloneRunAt
  simp only [digitRunLen] at hnb ⊢
  rw [hb]
  cases hA : (if i = 0 then true else (s.get? (i - 1)).all fun c => !isWordChar c) with
  | false => simp
  | true =>
    simp only [if_true]
    rw [List.drop_drop, hnb]
    by_cases hB : 4 ≤ ((s.drop i).takeWhile Char.isDigit).length
    · by_cases hC : ((s.get? (i + ((s.drop i).takeWhile Char.isDigit).length)).all
          fun c => !isWordChar c) = true
      · simp [hB, hC]
      · simp [hB, hC]
    · simp [hB]

/-- `ORDER_RE.search` equals the spec-level first standalone 4+-digit run. -/
theorem ORDER_search_eq_specOrderId (s : Str) : ORDER_search s = specOrderId s := by
  rw [ORDER_search, firstMatch_eq]
  have hpred : (fun j => (orderMatchAt (prevAt none s j) (s.drop j)).isSome)
      = standaloneRunAt s := by
    funext j
    rw [orderMatchAt_eq]
    by_cases h : standaloneRunAt s j <;> simp [h]
  rw [hpred, specOrderId]
  cases hf : (List.range s.length).find? (standaloneRunAt s) with
  | none => simp
  | some j =>
    have hj := List.find?_some hf
    simp [orderMatchAt_eq, hj]

theorem backLen_some (s1 : Str) :
    ∀ m n, backLen s1 m = some n → 1 ≤ n ∧ n ≤ m ∧ n ≤ s1.length := by
  intro m
  induction m with
  | zero => intro n h; simp [backLen] at h
  | succ k ih =>
    intro n h
    rw [backLen] at h
    cases hg : s1.get? k with
    | none =>
      rw [hg] at h
      have := ih n h
      omega
    | some lc =>
      rw [hg] at h
      dsimp only at h
      by_cases hbb : boundaryBetween lc (s1.drop (k + 1)) = true
      · rw [if_pos hbb] at h
        injection h with h
        obtain ⟨hk, -⟩ := List.get?_eq_some.mp hg
        omega
      · rw [if_neg hbb] at h
        have := ih n h
        omega

theorem all_take_of_le_takeWhile (q : Char → Bool) :
    ∀ (l : Str) (n : Nat), n ≤ (l.takeWhile q).length → (l.take n).all q = true := by
  intro l
  induction l with
  | nil => intro n _; simp
  | cons c cs ih =>
    intro n hn
    cases n with
    | zero => simp
    | succ m =>
      cases hq : q c with
      | false => rw [List.takeWhile_cons, hq] at hn; simp at hn
      | true =>
        simp only [List.takeWhile_cons, hq, if_true, List.length_cons] at hn
        simp only [List.take_succ_cons, List.all_cons, hq, Bool.true_and]
        exact ih m (by omega)

theorem firstMatch_some {α : Type} (f : Option Char → Str → Option α) :
    ∀ (s : Str) (prev : Option Char) (r : α), firstMatch f prev s = some r →
      ∃ prev' s', f prev' s' = some r := by
  intro s
  induction s with
  | nil => intro prev r h; simp [firstMatch] at h
  | cons c cs ih =>
    intro prev r h
    rw [firstMatch] at h
    cases hf : f prev (c :: cs) with
    | some r' =>
      rw [hf] at h
      injection h with h
      exact ⟨prev, c :: cs, by rw [hf, h]⟩
    | none =>
      rw [hf] at h
      exact ih (some c) r h

/-- Shape of a successful product match: `P`/`p`, then a digit, then at most
11 further characters of the class `[0-9A-Za-z_-]` (total length 2–13). -/
theorem productMatchAt_some (prev : Option Char) (s : Str) (raw : Str)
    (h : productMatchAt prev s = some raw) :
    2 ≤ raw.length ∧ raw.length ≤ 13 ∧
    (raw.head? = some 'P' ∨ raw.head? = some 'p') ∧
    (raw.get? 1).all Char.isDigit = true ∧
    (raw.drop 1).all productClassChar = true := by
  unfold productMatchAt at h
  cases s with
  | nil => simp at h
  | cons p s1 =>
    dsimp only at h
    by_cases hcond : (boundaryOk prev && (p == 'P' || p == 'p')) = true
    · rw [if_pos hcond] at h
      cases s1 with
      | nil => simp at h
      | cons d rest =>
        dsimp only at h
        by_cases hd : d.isDigit = true
        · rw [if_pos hd] at h
          cases hb : backLen (d :: rest) (min ((d :: rest).takeWhile productClassChar).length 12) with
          | none => rw [hb] at h; simp at h
          | some n =>
            rw [hb] at h
            injection h with h
            obtain ⟨h1, h2, h3⟩ := backLen_some _ _ _ hb
            subst h
            have hlen : ((d :: rest).take n).length = n := by
              rw [List.length_take]
              omega
            refine ⟨?_, ?_, ?_, ?_, ?_⟩
            · simp [hlen]; omega
            · simp only [List.length_cons, hlen]
              have : n ≤ 12 := le_trans h2 (min_le_right _ _)
              omega
            · have hp : (p == 'P' || p == 'p') = true := ((Bool.and_eq_true _ _).mp hcond).2
              have := (Bool.or_eq_true _ _).mp hp
              rcases this with hP | hP
              · left
                rw [List.head?_cons, beq_iff_eq.mp hP]
              · right
                rw [List.head?_cons, beq_iff_eq.mp hP]
            · obtain ⟨m, rfl⟩ : ∃ m, n = m + 1 := ⟨n - 1, by omega⟩
              simp only [List.take_succ_cons, List.get?_cons_succ, List.get?_cons_zero,
                Option.all_some]
              exact hd
            · simp only [List.drop_succ_cons, List.drop_zero]
              exact all_take_of_le_takeWhile productClassChar (d :: rest) n
                (le_trans h2 (min_le_left _ _))
        · rw [if_neg hd] at h; simp at h
    · rw [if_neg hcond] at h; simp at h

/-- A text with no digit admits no order match anywhere. -/
theorem order_scan_none (s : Str) :
    ∀ prev, (∀ c ∈ s, c.isDigit = false) → firstMatch orderMatchAt prev s = none := by
  induction s with
  | nil => intro prev _; rfl
  | cons c cs ih =>
    intro prev h
    have hc : c.isDigit = false := h c (List.mem_cons_self c cs)
    have hm : orderMatchAt prev (c :: cs) = none := by
      unfold orderMatchAt
      split
      · simp [List.takeWhile_cons, hc]
      · rfl
    rw [firstMatch, hm]
    exact ih (some c) fun x hx => h x (List.mem_cons_of_mem c hx)

/-- A text with no digit admits no product match anywhere (the lookahead
`(?=\d)` requires a digit right after the `P`). -/
theorem product_scan_none (s : Str) :
    ∀ prev, (∀ c ∈ s, c.isDigit = false) → firstMatch productMatchAt prev s = none := by
  induction s with
  | nil => intro prev _; rfl
  | cons c cs ih =>
    intro prev h
    have hm : productMatchAt prev (c :: cs) = none := by
      unfold productMatchAt
      dsimp only
      cases cs with
      | nil => split <;> rfl
      | cons d rest =>
        have hd : d.isDigit = false := h d (by simp)
        split
        · dsimp only
          simp [hd]
        · rfl
    rw [firstMatch, hm]
    exact ih (some c) fun x hx => h x (List.mem_cons_of_mem c hx)

/-- The slots returned by `classify_intent` are exactly the two regex
searches (the rule chain only chooses the intent label). -/
theorem classify_intent_slots (text : Str) :
    (classify_intent text).slots =
      { order_id := ORDER_search text, product_id := (PRODUCT_search text).map upperStr } := by
  unfold classify_intent
  dsimp only
  split
  · rfl
  · split
    · split
      · rfl
      · split <;> rfl
    · split
      · rfl
      · split
        · rfl
        · split
          · split <;> rfl
          · split
            · rfl
            · split
              · rfl
              · split <;> rfl

/-! ## Lemmas about the graph nodes and the loop -/

theorem classify_intent_node_fields (s : AgentState) :
    (classify_intent_node s).iteration = 0 ∧
    (classify_intent_node s).calls = s.calls ∧
    (classify_intent_node s).tool_response = s.tool_response ∧
    (classify_intent_node s).rag_results = s.rag_results ∧
    (classify_intent_node s).final_answer = s.final_answer ∧
    (classify_intent_node s).action = s.action ∧
    (classify_intent_node s).action_input = s.action_input ∧
    (classify_intent_node s).user_query = s.user_query ∧
    (classify_intent_node s).history = s.history ∧
    (classify_intent_node s).errors = s.errors := by
  unfold classify_intent_node classifyMerge
  dsimp only
  repeat' split
  all_goals exact ⟨rfl, rfl, rfl, rfl, rfl, rfl, rfl, rfl, rfl, rfl⟩

theorem reasoning_node_fields (s : AgentState) :
    (reasoning_node s).iteration = s.iteration + 1 ∧
    (reasoning_node s).calls = s.calls ∧
    (reasoning_node s).intent = s.intent ∧
    (reasoning_node s).slots = s.slots ∧
    (reasoning_node s).tool_response = s.tool_response ∧
    (reasoning_node s).rag_results = s.rag_results ∧
    (reasoning_node s).final_answer = s.final_answer ∧
    (reasoning_node s).user_query = s.user_query ∧
    (reasoning_node s).history = s.history ∧
    (reasoning_node s).errors = s.errors := by
  unfold reasoning_node
  dsimp only
  repeat' split
  all_goals exact ⟨rfl, rfl, rfl, rfl, rfl, rfl, rfl, rfl, rfl, rfl⟩

theorem action_node_fields (B : Backend) (s : AgentState) :
    (action_node B s).iteration = s.iteration ∧
    (action_node B s).intent = s.intent ∧
    (action_node B s).slots = s.slots ∧
    (action_node B s).action = s.action ∧
    (action_node B s).user_query = s.user_query ∧
    (action_node B s).history = s.history ∧
    (action_node B s).errors = s.errors := by
  unfold action_node
  repeat' split
  all_goals exact ⟨rfl, rfl, rfl, rfl, rfl, rfl, rfl⟩

theorem compose_node_fields (s : AgentState) :
    (compose_node s).iteration = s.iteration ∧
    (compose_node s).intent = s.intent ∧
    (compose_node s).slots = s.slots ∧
    (compose_node s).calls = s.calls ∧
    (compose_node s).action = s.action := by
  exact ⟨rfl, rfl, rfl, rfl, rfl⟩

theorem runLoop_succ (B : Backend) (fuel : Nat) (s : AgentState) :
    runLoop B (fuel + 1) s =
      (match should_continue_reasoning (reasoning_node s) with
       | ReasonRoute.stop => reasoning_node s
       | ReasonRoute.action =>
         match route_after_action (action_node B (reasoning_node s)) with
         | ActionRoute.compose => compose_node (action_node B (reasoning_node s))
         | ActionRoute.stop => action_node B (reasoning_node s)
         | ActionRoute.reasoning => runLoop B fuel (action_node B (reasoning_node s))) := rfl

/-! ## Lemmas about the iteration cap and session memory -/

theorem route_after_action_capped (s : AgentState) (h : MAX_ITERATIONS ≤ s.iteration) :
    route_after_action s = ActionRoute.compose := by
  unfold route_after_action
  rw [if_pos h]

/-- Entering the loop below the cap, the final iteration count never
exceeds the cap (the loop reaches the cap and is forced out). -/
theorem runLoop_iteration_le (B : Backend) :
    ∀ (fuel : Nat) (s : AgentState), s.iteration ≤ 4 → (runLoop B fuel s).iteration ≤ 5 := by
  intro fuel
  induction fuel with
  | zero =>
    intro s h
    unfold runLoop
    omega
  | succ k ih =>
    intro s h
    rw [runLoop_succ]
    have h1 : (reasoning_node s).iteration = s.iteration + 1 := (reasoning_node_fields s).1
    cases hsc : should_continue_reasoning (reasoning_node s) with
    | stop =>
      dsimp only
      omega
    | action =>
      dsimp only
      have h2 : (action_node B (reasoning_node s)).iteration = s.iteration + 1 := by
        rw [(action_node_fields B _).1, h1]
      cases hra : route_after_action (action_node B (reasoning_node s)) with
      | compose =>
        dsimp only
        rw [(compose_node_fields _).1, h2]
        omega
      | stop =>
        dsimp only
        omega
      | reasoning =>
        dsimp only
        apply ih
        have hnc : ¬ MAX_ITERATIONS ≤ (action_node B (reasoning_node s)).iteration := by
          intro hge
          rw [route_after_action_capped _ hge] at hra
          cases hra
        unfold MAX_ITERATIONS at hnc
        omega

/-- Fuel-independence of the loop: any two fuels large enough relative to
the entry iteration compute the same turn (the loop terminates by the cap,
not by fuel exhaustion). -/
theorem runLoop_fuel_eq (B : Backend) :
    ∀ (f1 f2 : Nat) (s : AgentState), 4 ≤ s.iteration + f1 → 4 ≤ s.iteration + f2 →
      runLoop B (f1 + 1) s = runLoop B (f2 + 1) s := by
  intro f1
  induction f1 with
  | zero =>
    intro f2 s h1 h2
    rw [runLoop_succ B 0 s, runLoop_succ B f2 s]
    cases hsc : should_continue_reasoning (reasoning_node s) with
    | stop => rfl
    | action =>
      dsimp only
      have hit : (action_node B (reasoning_node s)).iteration = s.iteration + 1 := by
        rw [(action_node_fields B _).1, (reasoning_node_fields s).1]
      have hcap : MAX_ITERATIONS ≤ (action_node B (reasoning_node s)).iteration := by
        rw [hit]
        unfold MAX_ITERATIONS
        omega
      rw [route_after_action_capped _ hcap]
  | succ k ih =>
    intro f2 s h1 h2
    rw [runLoop_succ B (k + 1) s, runLoop_succ B f2 s]
    cases hsc : should_continue_reasoning (reasoning_node s) with
    | stop => rfl
    | action =>
      dsimp only
      have hit : (action_node B (reasoning_node s)).iteration = s.iteration + 1 := by
        rw [(action_node_fields B _).1, (reasoning_node_fields s).1]
      cases hra : route_after_action (action_node B (reasoning_node s)) with
      | compose => rfl
      | stop => rfl
      | reasoning =>
        dsimp only
        have hlt : ¬ MAX_ITERATIONS ≤ (action_node B (reasoning_node s)).iteration := by
          intro hge
          rw [route_after_action_capped _ hge] at hra
          cases hra
        unfold MAX_ITERATIONS at hlt
        obtain ⟨m, rfl⟩ : ∃ m, f2 = m + 1 := ⟨f2 - 1, by omega⟩
        exact ih m _ (by omega) (by omega)

theorem lastN_length_le {α : Type} (n : Nat) (l : List α) : (lastN n l).length ≤ n := by
  unfold lastN
  rw [List.length_drop]
  omega

/-- The transcript written by the memory update is the last 20 entries of
the old transcript extended by the new `(user, assistant)` pair. -/
theorem memory_update_messages (mem : Memory) (q : Str) (r : AgentState) :
    (memory_update mem q r).messages
      = lastN 20 (mem.messages ++ [⟨q, r.final_answer.getD []⟩]) := by
  unfold memory_update
  dsimp only
  congr 2
  repeat' split
  all_goals rfl

theorem memory_update_len (mem : Memory) (q : Str) (r : AgentState) :
    (memory_update mem q r).messages.length ≤ 20 := by
  rw [memory_update_messages]
  exact lastN_length_le _ _

theorem run_turns_len_aux (B : Backend) :
    ∀ (qs : List Str) (mem : Memory), mem.messages.length ≤ 20 →
      (run_turns B mem qs).messages.length ≤ 20 := by
  intro qs
  induction qs with
  | nil => intro mem h; exact h
  | cons q qs' ih =>
    intro mem h
    show (run_turns B ((run_agent_with_memory B q mem).2) qs').messages.length ≤ 20
    apply ih
    rw [show (run_agent_with_memory B q mem).2
        = memory_update mem q ((run_agent_with_memory B q mem).1) from rfl]
    exact memory_update_len _ _ _

/-! ## Lemmas about the retrieval scoring pipeline -/

theorem isEmpty_false_of_ne {α : Type} (l : List α) (h : l ≠ []) : l.isEmpty = false := by
  cases l with
  | nil => exact absurd rfl h
  | cons a t => rfl

/-- Every entry built by `mkEntries` with the blended combined list carries
the blend of its own two normalized scores. -/
theorem mkEntries_combined (alpha : ℚ) :
    ∀ (docs : List Doc) (srs sns lns : List ℚ),
      ∀ e ∈ mkEntries docs srs sns lns
          (List.zipWith (fun x y => alpha * x + (1 - alpha) * y) sns lns),
        e.combined = alpha * e.semantic_norm + (1 - alpha) * e.lexical_norm := by
  intro docs
  induction docs with
  | nil => intro srs sns lns e he; simp [mkEntries] at he
  | cons d ds ih =>
    intro srs sns lns e he
    cases srs with
    | nil => simp [mkEntries] at he
    | cons sr srs' =>
      cases sns with
      | nil => simp [mkEntries] at he
      | cons sn sns' =>
        cases lns with
        | nil => simp [mkEntries] at he
        | cons ln lns' =>
          rw [List.zipWith_cons_cons] at he
          rcases List.mem_cons.mp he with h | h
          · subst h; rfl
          · exact ih srs' sns' lns' e h

theorem mkEntries_semantic_norm_mem :
    ∀ (docs : List Doc) (srs sns lns cbs : List ℚ),
      ∀ e ∈ mkEntries docs srs sns lns cbs, e.semantic_norm ∈ sns := by
  intro docs
  induction docs with
  | nil => intro srs sns lns cbs e he; simp [mkEntries] at he
  | cons d ds ih =>
    intro srs sns lns cbs e he
    cases srs with
    | nil => simp [mkEntries] at he
    | cons sr srs' =>
      cases sns with
      | nil => simp [mkEntries] at he
      | cons sn sns' =>
        cases lns with
        | nil => simp [mkEntries] at he
        | cons ln lns' =>
          cases cbs with
          | nil => simp [mkEntries] at he
          | cons cb cbs' =>
            rcases List.mem_cons.mp he with h | h
            · subst h; exact List.mem_cons_self _ _
            · exact List.mem_cons_of_mem _ (ih srs' sns' lns' cbs' e h)

theorem mkEntries_lexical_norm_mem :
    ∀ (docs : List Doc) (srs sns lns cbs : List ℚ),
      ∀ e ∈ mkEntries docs srs sns lns cbs, e.lexical_norm ∈ lns := by
  intro docs
  induction docs with
  | nil => intro srs sns lns cbs e he; simp [mkEntries] at he
  | cons d ds ih =>
    intro srs sns lns cbs e he
    cases srs with
    | nil => simp [mkEntries] at he
    | cons sr srs' =>
      cases sns with
      | nil => simp [mkEntries] at he
      | cons sn sns' =>
        cases lns with
        | nil => simp [mkEntries] at he
        | cons ln lns' =>
          cases cbs with
          | nil => simp [mkEntries] at he
          | cons cb cbs' =>
            rcases List.mem_cons.mp he with h | h
            · subst h; exact List.mem_cons_self _ _
            · exact List.mem_cons_of_mem _ (ih srs' sns' lns' cbs' e h)

/-- Degenerate-pool branch of `_norm`: the whole pool maps to `1.0`. -/
theorem normScores_degenerate (arr : List ℚ) (hne : arr ≠ [])
    (hdeg : listMax arr - listMin arr < eps) :
    normScores arr = List.replicate arr.length 1 := by
  unfold normScores
  rw [isEmpty_false_of_ne arr hne]
  simp only [Bool.false_eq_true, if_false, if_pos hdeg]
  exact List.map_const arr 1

/-- Non-degenerate branch of `_norm`: the genuine min–max formula, with a
provably nonzero denominator. -/
theorem normScores_formula (arr : List ℚ) (hne : arr ≠ [])
    (hdeg : ¬ listMax arr - listMin arr < eps) :
    listMax arr - listMin arr ≠ 0 ∧
    normScores arr = arr.map fun x => (x - listMin arr) / (listMax arr - listMin arr) := by
  constructor
  · have hle : eps ≤ listMax arr - listMin arr := not_lt.mp hdeg
    have heps : (0 : ℚ) < eps := by norm_num [eps]
    intro h0
    rw [h0] at hle
    exact absurd (lt_of_lt_of_le heps hle) (lt_irrefl 0)
  · unfold normScores
    rw [isEmpty_false_of_ne arr hne]
    simp only [Bool.false_eq_true, if_false, if_neg hdeg]

/-- In a retrieval with a degenerate semantic pool, every candidate's
normalized semantic score is `1`. -/
theorem retrieve_semantic_norm_degenerate (B : Backend) (query : Str)
    (fetch_k top_k : Nat) (alpha : ℚ) (hne : B.store_search query fetch_k ≠ [])
    (hdeg : listMax (semPool B query fetch_k) - listMin (semPool B query fetch_k) < eps) :
    ∀ e ∈ (retrieve_policy B query fetch_k top_k alpha).candidates, e.semantic_norm = 1 := by
  have hEmp := isEmpty_false_of_ne _ hne
  unfold retrieve_policy
  dsimp only
  rw [hEmp]
  simp only [Bool.false_eq_true, if_false]
  intro e he
  have he1 := (List.perm_insertionSort
    (fun a b : RetEntry => b.combined ≤ a.combined) _).mem_iff.mp he
  have hmem := mkEntries_semantic_norm_mem _ _ _ _ _ e he1
  have hpne : semPool B query fetch_k ≠ [] := by
    unfold semPool
    simp only [ne_eq, List.map_eq_nil_iff]
    exact hne
  have hrep := normScores_degenerate (semPool B query fetch_k) hpne hdeg
  unfold semPool at hrep
  rw [hrep] at hmem
  exact List.eq_of_mem_replicate hmem

/-- In a retrieval with a degenerate lexical pool, every candidate's
normalized lexical score is `1`. -/
theorem retrieve_lexical_norm_degenerate (B : Backend) (query : Str)
    (fetch_k top_k : Nat) (alpha : ℚ) (hne : B.store_search query fetch_k ≠ [])
    (hdeg : listMax (lexPool B query fetch_k) - listMin (lexPool B query fetch_k) < eps) :
    ∀ e ∈ (retrieve_policy B query fetch_k top_k alpha).candidates, e.lexical_norm = 1 := by
  have hEmp := isEmpty_false_of_ne _ hne
  unfold retrieve_policy
  dsimp only
  rw [hEmp]
  simp only [Bool.false_eq_true, if_false]
  intro e he
  have he1 := (List.perm_insertionSort
    (fun a b : RetEntry => b.combined ≤ a.combined) _).mem_iff.mp he
  have hmem := mkEntries_lexical_norm_mem _ _ _ _ _ e he1
  have hpne : lexPool B query fetch_k ≠ [] := by
    unfold lexPool
    simp only [ne_eq, List.map_eq_nil_iff]
    exact hne
  have hrep := normScores_degenerate (lexPool B query fetch_k) hpne hdeg
  unfold lexPool at hrep
  rw [hrep] at hmem
  exact List.eq_of_mem_replicate hmem

/-! ## Claim theorems -/

/-- C1: for every turn whose resolved intent requires a slot that is absent
(`order_status`/`refund_status`/`delivery_delay` require `order_id`;
`product_availability`/`inventory_check` require `product_id`), the
orchestrator sets `final_answer` to the fixed clarification prompt and ends
the turn with no backend lookup and no retriever call (empty external-call
trace, no tool response, no retrieved passages). -/
theorem C1_missing_slot_clarification (B : Backend) (q : Str) (hist : List HistEntry) :
    (((classify_intent_node (initState q hist)).intent = some Intent.order_status ∨
      (classify_intent_node (initState q hist)).intent = some Intent.refund_status ∨
      (classify_intent_node (initState q hist)).intent = some Intent.delivery_delay) →
      (classify_intent_node (initState q hist)).slots.order_id = none →
      (run_agent B q hist).final_answer = some CLARIFY_FOR_ORDER_ID ∧
      (run_agent B q hist).calls = [] ∧
      (run_agent B q hist).tool_response = none ∧
      (run_agent B q hist).rag_results = []) ∧
    (((classify_intent_node (initState q hist)).intent = some Intent.product_availability ∨
      (classify_intent_node (initState q hist)).intent = some Intent.inventory_check) →
      (classify_intent_node (initState q hist)).slots.product_id = none →
      (run_agent B q hist).final_answer = some CLARIFY_FOR_PRODUCT_ID ∧
      (run_agent B q hist).calls = [] ∧
      (run_agent B q hist).tool_response = none ∧
      (run_agent B q hist).rag_results = []) := by
  have hc := classify_intent_node_fields (initState q hist)
  set c := classify_intent_node (initState q hist) with hcdef
  have hiter : c.iteration = 0 := hc.1
  constructor
  · intro hint hslot
    have hguard : (inOrderIdIntents c.intent && c.slots.order_id.isNone) = true := by
      rcases hint with h | h | h <;> rw [h, hslot] <;> rfl
    have hr : reasoning_node c = { c with
        action := some Action.ask_for_slot,
        action_input := ActionInput.slot SlotKind.order_id,
        iteration := c.iteration + 1 } := by
      unfold reasoning_node
      rw [if_pos hguard]
    have hsc : should_continue_reasoning (reasoning_node c) = ReasonRoute.action := by
      unfold should_continue_reasoning
      rw [hr]
      simp [hiter, MAX_ITERATIONS]
    have ha : action_node B (reasoning_node c)
        = { reasoning_node c with final_answer := some CLARIFY_FOR_ORDER_ID } := by
      rw [hr]
      rfl
    have hroute : route_after_action (action_node B (reasoning_node c)) = ActionRoute.stop := by
      rw [ha, hr]
      unfold route_after_action
      simp [hiter, MAX_ITERATIONS]
    have hrun : run_agent B q hist = action_node B (reasoning_node c) := by
      rw [run_agent, agent_invoke, ← hcdef,
        show MAX_ITERATIONS + 1 = 5 + 1 from rfl, runLoop_succ, hsc]
      dsimp only
      rw [hroute]
    rw [hrun, ha, hr]
    refine ⟨rfl, ?_, ?_, ?_⟩
    · show c.calls = []
      rw [hc.2.1]
      rfl
    · show c.tool_response = none
      rw [hc.2.2.1]
      rfl
    · show c.rag_results = []
      rw [hc.2.2.2.1]
      rfl
  · intro hint hslot
    have hguard2 : (inProductIntents c.intent && c.slots.product_id.isNone) = true := by
      rcases hint with h | h <;> rw [h, hslot] <;> rfl
    have hguard1 : (inOrderIdIntents c.intent && c.slots.order_id.isNone) = false := by
      rcases hint with h | h <;> rw [h] <;> rfl
    have hr : reasoning_node c = { c with
        action := some Action.ask_for_slot,
        action_input := ActionInput.slot SlotKind.product_id,
        iteration := c.iteration + 1 } := by
      unfold reasoning_node
      rw [if_neg (by rw [hguard1]; exact Bool.false_ne_true), if_pos hguard2]
    have hsc : should_continue_reasoning (reasoning_node c) = ReasonRoute.action := by
      unfold should_continue_reasoning
      rw [hr]
      simp [hiter, MAX_ITERATIONS]
    have ha : action_node B (reasoning_node c)
        = { reasoning_node c with final_answer := some CLARIFY_FOR_PRODUCT_ID } := by
      rw [hr]
      rfl
    have hroute : route_after_action (action_node B (reasoning_node c)) = ActionRoute.stop := by
      rw [ha, hr]
      unfold route_after_action
      simp [hiter, MAX_ITERATIONS]
    have hrun : run_agent B q hist = action_node B (reasoning_node c) := by
      rw [run_agent, agent_invoke, ← hcdef,
        show MAX_ITERATIONS + 1 = 5 + 1 from rfl, runLoop_succ, hsc]
      dsimp only
      rw [hroute]
    rw [hrun, ha, hr]
    refine ⟨rfl, ?_, ?_, ?_⟩
    · show c.calls = []
      rw [hc.2.1]
      rfl
    · show c.tool_response = none
      rw [hc.2.2.1]
      rfl
    · show c.rag_results = []
      rw [hc.2.2.2.1]
      rfl

/-- C1 witness: a tracking query with no digits short-circuits to the order
clarification prompt, and a stock query with no product token to the
product clarification prompt, with empty external-call traces. -/
theorem C1_missing_slot_clarification_witness :
    ((classify_intent_node (initState (str "Where is my order?") [])).intent
        = some Intent.order_status ∧
      (classify_intent_node (initState (str "Where is my order?") [])).slots.order_id = none ∧
      (run_agent mockBackend (str "Where is my order?") []).final_answer
        = some CLARIFY_FOR_ORDER_ID ∧
      (run_agent mockBackend (str "Where is my order?") []).calls = []) ∧
    ((classify_intent_node (initState (str "Is it in stock?") [])).intent
        = some Intent.product_availability ∧
      (classify_intent_node (initState (str "Is it in stock?") [])).slots.product_id = none ∧
      (run_agent mockBackend (str "Is it in stock?") []).final_answer
        = some CLARIFY_FOR_PRODUCT_ID ∧
      (run_agent mockBackend (str "Is it in stock?") []).calls = []) := by
  refine ⟨⟨by decide, by decide, ?_, ?_⟩, by decide, by decide, ?_, ?_⟩
  · exact ((C1_missing_slot_clarification mockBackend _ []).1
      (Or.inl (by decide)) (by decide)).1
  · exact ((C1_missing_slot_clarification mockBackend _ []).1
      (Or.inl (by decide)) (by decide)).2.1
  · exact ((C1_missing_slot_clarification mockBackend _ []).2
      (Or.inl (by decide)) (by decide)).1
  · exact ((C1_missing_slot_clarification mockBackend _ []).2
      (Or.inl (by decide)) (by decide)).2.1

/-- C2 (evaluation at the failing input): with session memory recording
`last_intent = refund_status` and a prior transcript entry, a turn whose
user text is exactly `"98762"` resolves its intent to `order_status` —
not to `refund_status` as the spec claims. The digit-only override in
`classify_intent_node` hard-codes `order_status`, so the memory-based
correction (which only fires on a `policy_query` result) never applies. -/
theorem C2_digit_followup_resolves_order_status :
    (run_agent_with_memory mockBackend (str "98762") memRefund).1.intent
        = some Intent.order_status ∧
    (run_agent_with_memory mockBackend (str "98762") memRefund).1.intent
        ≠ some Intent.refund_status := by
  constructor
  · decide
  · decide

/-- C3: slot extraction. (a) The extracted `order_id` is exactly the first
standalone run of 4+ consecutive digits (first match in reading order);
(b) the extracted `product_id` is the uppercased match at the first
position admitting a product-token match; (c) every product match starts
with `P`/`p` directly followed by a digit and has 0–11 further
alphanumeric/hyphen/underscore characters, and is stored uppercased;
(d) a text without any digit (such as one containing only words like
"product" or "purchase") yields absent slots — and absence is an `Option`
value, never an exception, the extractor being a total function. -/
theorem C3_slot_extraction :
    (∀ text : Str, (classify_intent text).slots.order_id = specOrderId text) ∧
    (∀ text : Str,
      (classify_intent text).slots.product_id = (specProductId text).map upperStr) ∧
    (∀ (text raw : Str), PRODUCT_search text = some raw →
      (classify_intent text).slots.product_id = some (upperStr raw) ∧
      2 ≤ raw.length ∧ raw.length ≤ 13 ∧
      (raw.head? = some 'P' ∨ raw.head? = some 'p') ∧
      (raw.get? 1).all Char.isDigit = true ∧
      (raw.drop 1).all productClassChar = true) ∧
    (∀ text : Str, (∀ c ∈ text, c.isDigit = false) →
      (classify_intent text).slots.order_id = none ∧
      (classify_intent text).slots.product_id = none) := by
  refine ⟨?_, ?_, ?_, ?_⟩
  · intro text
    rw [classify_intent_slots]
    exact ORDER_search_eq_specOrderId text
  · intro text
    rw [classify_intent_slots]
    show (PRODUCT_search text).map upperStr = _
    rw [PRODUCT_search, firstMatch_eq, specProductId]
  · intro text raw h
    obtain ⟨prev', s', hps⟩ := firstMatch_some productMatchAt text none raw h
    have hsh := productMatchAt_some prev' s' raw hps
    refine ⟨?_, hsh.1, hsh.2.1, hsh.2.2.1, hsh.2.2.2.1, hsh.2.2.2.2⟩
    rw [classify_intent_slots]
    show (PRODUCT_search text).map upperStr = _
    rw [h]
    rfl
  · intro text h
    rw [classify_intent_slots]
    constructor
    · exact order_scan_none text none h
    · show (PRODUCT_search text).map upperStr = none
      rw [PRODUCT_search, product_scan_none text none h]
      rfl

/-- C3 witness: a concrete product token is extracted and uppercased, and a
digit-free text containing "product" and "purchase" yields no slots. -/
theorem C3_slot_extraction_witness :
    PRODUCT_search (str "is P123 available") = some (str "P123") ∧
    (classify_intent (str "is P123 available")).slots.product_id
      = some (upperStr (str "P123")) ∧
    (∀ c ∈ str "no digits here product purchase", c.isDigit = false) ∧
    (classify_intent (str "no digits here product purchase")).slots.order_id = none ∧
    (classify_intent (str "no digits here product purchase")).slots.product_id = none :=
  ⟨by decide, (C3_slot_extraction.2.2.1 _ _ (by decide)).1, by decide,
   (C3_slot_extraction.2.2.2 _ (by decide)).1, (C3_slot_extraction.2.2.2 _ (by decide)).2⟩

/-- C4: for a non-empty candidate pool, every candidate's combined score is
`alpha * semantic_norm + (1 - alpha) * lexical_norm` (both over the full
re-ranked pool and over the returned top-k), and in particular with
`alpha = 1` the combined score is the normalized semantic score, with
`alpha = 0` the normalized lexical score. -/
theorem C4_combined_score_blend (B : Backend) (query : Str) (fetch_k top_k : Nat)
    (alpha : ℚ) (hne : B.store_search query fetch_k ≠ []) :
    (∀ e ∈ (retrieve_policy B query fetch_k top_k alpha).candidates,
      e.combined = alpha * e.semantic_norm + (1 - alpha) * e.lexical_norm) ∧
    (∀ e ∈ (retrieve_policy B query fetch_k top_k alpha).final,
      e.combined = alpha * e.semantic_norm + (1 - alpha) * e.lexical_norm) ∧
    (alpha = 1 → ∀ e ∈ (retrieve_policy B query fetch_k top_k alpha).candidates,
      e.combined = e.semantic_norm) ∧
    (alpha = 0 → ∀ e ∈ (retrieve_policy B query fetch_k top_k alpha).candidates,
      e.combined = e.lexical_norm) := by
  have hEmp := isEmpty_false_of_ne _ hne
  unfold retrieve_policy
  dsimp only
  rw [hEmp]
  simp only [Bool.false_eq_true, if_false]
  have hcand : ∀ e ∈ (List.insertionSort (fun a b : RetEntry => b.combined ≤ a.combined)
      (mkEntries (B.store_search query fetch_k)
        (((B.store_search query fetch_k).map fun d => B.cos_sim query d.page_content).map
          fun x => max 0 ((x + 1) / 2))
        (normScores (((B.store_search query fetch_k).map
          fun d => B.cos_sim query d.page_content).map fun x => max 0 ((x + 1) / 2)))
        (normScores ((B.store_search query fetch_k).map
          fun d => lexical_score query d.page_content))
        (List.zipWith (fun x y => alpha * x + (1 - alpha) * y)
          (normScores (((B.store_search query fetch_k).map
            fun d => B.cos_sim query d.page_content).map fun x => max 0 ((x + 1) / 2)))
          (normScores ((B.store_search query fetch_k).map
            fun d => lexical_score query d.page_content))))),
      e.combined = alpha * e.semantic_norm + (1 - alpha) * e.lexical_norm := by
    intro e he
    have he1 := (List.perm_insertionSort
      (fun a b : RetEntry => b.combined ≤ a.combined) _).mem_iff.mp he
    exact mkEntries_combined alpha _ _ _ _ e he1
  refine ⟨hcand, ?_, ?_, ?_⟩
  · intro e he
    exact hcand e (List.mem_of_mem_take he)
  · intro h1 e he
    rw [hcand e he, h1]
    ring
  · intro h0 e he
    rw [hcand e he, h0]
    ring

/-- C4 witness: a concrete non-empty pool, with the blend identity over the
re-ranked candidates at `alpha = 85/100`. -/
theorem C4_combined_score_blend_witness :
    mockBackendRag.store_search (str "refund policy") 10 ≠ [] ∧
    (∀ e ∈ (retrieve_policy mockBackendRag (str "refund policy") 10 3 (85 / 100)).candidates,
      e.combined = 85 / 100 * e.semantic_norm + (1 - 85 / 100) * e.lexical_norm) :=
  ⟨by decide,
   (C4_combined_score_blend mockBackendRag (str "refund policy") 10 3 (85 / 100) (by decide)).1⟩

/-- C5: semantic and lexical scores are min–max normalized independently
over the candidate pool; a pool whose range collapses below `1e-12` maps
every member to `1.0`, and otherwise the formula divides by a provably
nonzero range — normalization never divides by zero. -/
theorem C5_minmax_normalization :
    (∀ arr : List ℚ, arr ≠ [] →
      (listMax arr - listMin arr < eps → normScores arr = List.replicate arr.length 1) ∧
      (¬ listMax arr - listMin arr < eps →
        listMax arr - listMin arr ≠ 0 ∧
        normScores arr = arr.map fun x => (x - listMin arr) / (listMax arr - listMin arr))) ∧
    (∀ (B : Backend) (query : Str) (fetch_k top_k : Nat) (alpha : ℚ),
      B.store_search query fetch_k ≠ [] →
      (listMax (semPool B query fetch_k) - listMin (semPool B query fetch_k) < eps →
        ∀ e ∈ (retrieve_policy B query fetch_k top_k alpha).candidates,
          e.semantic_norm = 1) ∧
      (listMax (lexPool B query fetch_k) - listMin (lexPool B query fetch_k) < eps →
        ∀ e ∈ (retrieve_policy B query fetch_k top_k alpha).candidates,
          e.lexical_norm = 1)) := by
  constructor
  · intro arr hne
    exact ⟨normScores_degenerate arr hne, normScores_formula arr hne⟩
  · intro B query fetch_k top_k alpha hne
    exact ⟨retrieve_semantic_norm_degenerate B query fetch_k top_k alpha hne,
      retrieve_lexical_norm_degenerate B query fetch_k top_k alpha hne⟩

/-- C5 witness: a uniform two-element pool is degenerate and maps to all
ones; the pool `[0, 1]` is non-degenerate with a nonzero range; and in a
retrieval over a single document (a degenerate pool by construction) every
candidate gets normalized semantic score `1`. -/
theorem C5_minmax_normalization_witness :
    ([(1 : ℚ) / 2, 1 / 2] ≠ []) ∧
    (listMax [(1 : ℚ) / 2, 1 / 2] - listMin [(1 : ℚ) / 2, 1 / 2] < eps) ∧
    normScores [(1 : ℚ) / 2, 1 / 2] = List.replicate 2 1 ∧
    (¬ listMax [(0 : ℚ), 1] - listMin [(0 : ℚ), 1] < eps) ∧
    listMax [(0 : ℚ), 1] - listMin [(0 : ℚ), 1] ≠ 0 ∧
    mockBackendRag.store_search (str "policy") 10 ≠ [] ∧
    (listMax (semPool mockBackendRag (str "policy") 10)
      - listMin (semPool mockBackendRag (str "policy") 10) < eps) ∧
    (∀ e ∈ (retrieve_policy mockBackendRag (str "policy") 10 3 (85 / 100)).candidates,
      e.semantic_norm = 1) := by
  have hdeg : listMax [(1 : ℚ) / 2, 1 / 2] - listMin [(1 : ℚ) / 2, 1 / 2] < eps := by
    norm_num [listMax, listMin, List.foldl, eps]
  have hnondeg : ¬ listMax [(0 : ℚ), 1] - listMin [(0 : ℚ), 1] < eps := by
    norm_num [listMax, listMin, List.foldl, eps]
  have hsem : listMax (semPool mockBackendRag (str "policy") 10)
      - listMin (semPool mockBackendRag (str "policy") 10) < eps := by
    norm_num [semPool, mockBackendRag, mockBackend, ragDocs, listMax, listMin,
      List.foldl, eps]
  refine ⟨by simp, hdeg, ?_, hnondeg, ?_, by decide, hsem, ?_⟩
  · exact (C5_minmax_normalization.1 _ (by simp)).1 hdeg
  · exact ((C5_minmax_normalization.1 _ (by simp)).2 hnondeg).1
  · exact (C5_minmax_normalization.2 mockBackendRag _ 10 3 _ (by decide)).1 hsem

/-- C6: when the vector index yields no candidates, `retrieve_policy`
returns an empty final list, an empty candidate list and confidence `0`
(and, being a total function, raises no error). -/
theorem C6_empty_pool_empty_result (B : Backend) (query : Str) (fetch_k top_k : Nat)
    (alpha : ℚ) (h : B.store_search query fetch_k = []) :
    (retrieve_policy B query fetch_k top_k alpha).final = [] ∧
    (retrieve_policy B query fetch_k top_k alpha).candidates = [] ∧
    (retrieve_policy B query fetch_k top_k alpha).confidence = 0 := by
  unfold retrieve_policy
  rw [h]
  exact ⟨rfl, rfl, rfl⟩

/-- C6 witness: the mock backend's store is empty, so retrieval yields the
empty list and zero confidence. -/
theorem C6_empty_pool_empty_result_witness :
    mockBackend.store_search (str "any query") 10 = [] ∧
    (retrieve_policy mockBackend (str "any query") 10 3 (85 / 100)).final = [] ∧
    (retrieve_policy mockBackend (str "any query") 10 3 (85 / 100)).confidence = 0 :=
  ⟨rfl, (C6_empty_pool_empty_result mockBackend _ 10 3 _ rfl).1,
   (C6_empty_pool_empty_result mockBackend _ 10 3 _ rfl).2.2⟩

/-- C7: every orchestrated turn terminates within the iteration cap: any
fuel of at least `MAX_ITERATIONS` computes the same turn (the loop never
exhausts its fuel), the final iteration count — which counts exactly the
executed reasoning steps, each reasoning step adding one from the zero set
at classification — never exceeds `MAX_ITERATIONS` (5), and at or past the
cap the router forces the transition to the compose step regardless of the
last action. -/
theorem C7_bounded_reasoning_loop :
    (∀ (B : Backend) (s : AgentState) (fuel : Nat), MAX_ITERATIONS ≤ fuel →
      runLoop B fuel (classify_intent_node s) = agent_invoke B s) ∧
    (∀ (B : Backend) (s : AgentState), (agent_invoke B s).iteration ≤ MAX_ITERATIONS) ∧
    (∀ s : AgentState, (reasoning_node s).iteration = s.iteration + 1) ∧
    (∀ s : AgentState, (classify_intent_node s).iteration = 0) ∧
    (∀ s : AgentState, MAX_ITERATIONS ≤ s.iteration →
      route_after_action s = ActionRoute.compose) := by
  refine ⟨?_, ?_, ?_, ?_, ?_⟩
  · intro B s fuel hfuel
    unfold MAX_ITERATIONS at hfuel
    obtain ⟨m, rfl⟩ : ∃ m, fuel = m + 1 := ⟨fuel - 1, by omega⟩
    unfold agent_invoke
    have h0 : (classify_intent_node s).iteration = 0 := (classify_intent_node_fields s).1
    exact runLoop_fuel_eq B m 5 (classify_intent_node s) (by omega) (by omega)
  · intro B s
    unfold agent_invoke
    exact runLoop_iteration_le B _ _ (by rw [(classify_intent_node_fields s).1]; omega)
  · intro s
    exact (reasoning_node_fields s).1
  · intro s
    exact (classify_intent_node_fields s).1
  · intro s h
    exact route_after_action_capped s h

/-- C7 witness: a concrete turn runs identically with fuel 7 and with the
canonical fuel; its iteration count stays within the cap; and a state at
the cap is routed to compose. -/
theorem C7_bounded_reasoning_loop_witness :
    (MAX_ITERATIONS ≤ 7 ∧
      runLoop mockBackend 7 (classify_intent_node (initState (str "hello") []))
        = agent_invoke mockBackend (initState (str "hello") [])) ∧
    (agent_invoke mockBackend (initState (str "hello") [])).iteration ≤ MAX_ITERATIONS ∧
    (MAX_ITERATIONS ≤ stateAtCap.iteration ∧
      route_after_action stateAtCap = ActionRoute.compose) :=
  ⟨⟨by decide, C7_bounded_reasoning_loop.1 mockBackend _ 7 (by decide)⟩,
   C7_bounded_reasoning_loop.2.1 mockBackend _,
   by decide, C7_bounded_reasoning_loop.2.2.2.2 stateAtCap (by decide)⟩

/-- C8: after every turn of the memory-enabled runner the session transcript
holds at most 20 `(user, assistant)` entries regardless of how many turns
were run, and the new transcript is exactly the most recent 20 entries of
the old transcript extended with the new pair — the oldest entries are
evicted first. -/
theorem C8_transcript_capacity :
    (∀ (B : Backend) (mem : Memory) (qs : List Str), qs ≠ [] →
      (run_turns B mem qs).messages.length ≤ 20) ∧
    (∀ (B : Backend) (mem : Memory) (q : Str),
      (run_agent_with_memory B q mem).2.messages
        = lastN 20 (mem.messages
            ++ [⟨q, (run_agent_with_memory B q mem).1.final_answer.getD []⟩])) := by
  constructor
  · intro B mem qs hqs
    cases qs with
    | nil => exact absurd rfl hqs
    | cons q qs' =>
      show (run_turns B ((run_agent_with_memory B q mem).2) qs').messages.length ≤ 20
      apply run_turns_len_aux
      rw [show (run_agent_with_memory B q mem).2
          = memory_update mem q ((run_agent_with_memory B q mem).1) from rfl]
      exact memory_update_len _ _ _
  · intro B mem q
    rw [show (run_agent_with_memory B q mem).2
        = memory_update mem q ((run_agent_with_memory B q mem).1) from rfl]
    exact memory_update_messages _ _ _

/-- C8 witness: one concrete turn leaves a transcript of at most 20
entries. -/
theorem C8_transcript_capacity_witness :
    ([str "hello"] ≠ ([] : List Str)) ∧
    (run_turns mockBackend emptyMemory [str "hello"]).messages.length ≤ 20 :=
  ⟨by decide, C8_transcript_capacity.1 mockBackend emptyMemory _ (by decide)⟩

/-- C9: on every input the rule-based classifier produces one of only seven
labels — `return_policy`, `refund_status`, `order_status`,
`delivery_delay`, `charges_query`, `product_availability`, `policy_query` —
and in particular never `cancellation_policy` and never `inventory_check`. -/
theorem C9_classifier_label_subset (text : Str) :
    (classify_intent text).intent ∈ [Intent.return_policy, Intent.refund_status,
      Intent.order_status, Intent.delivery_delay, Intent.charges_query,
      Intent.product_availability, Intent.policy_query] ∧
    (classify_intent text).intent ≠ Intent.cancellation_policy ∧
    (classify_intent text).intent ≠ Intent.inventory_check := by
  unfold classify_intent
  dsimp only
  split
  · simp
  · split
    · split
      · simp
      · split <;> simp
    · split
      · simp
      · split
        · simp
        · split
          · split <;> simp
          · split
            · simp
            · split
              · simp
              · split <;> simp

/-- C10: a turn whose user query consists entirely of digits — of any
length, including fewer than 4 — gets the whole (stripped) string assigned
to the `order_id` slot by the classify step, bypassing the extractor's
4-digit minimum. -/
theorem C10_digit_only_query_order_id (q : Str) (hist : List HistEntry)
    (h : pyIsDigit (pyStrip q) = true) :
    (classify_intent_node (initState q hist)).slots.order_id = some (pyStrip q) ∧
    (classify_intent_node (initState q hist)).intent = some Intent.order_status := by
  unfold classify_intent_node
  dsimp only
  rw [show (initState q hist).user_query = q from rfl, if_pos h]
  by_cases h2 : ((initState q hist).intent.isNone && !(initState q hist).history.isEmpty
      && prev_intent_ok (initState q hist).history) = true
  · rw [if_pos h2]
    exact ⟨rfl, rfl⟩
  · rw [if_neg h2, if_pos (show isPolicyOrNone (initState q hist).intent = true from rfl)]
    exact ⟨rfl, rfl⟩

/-- C10 witness: the two-digit query `"12"` is assigned whole to the
`order_id` slot. -/
theorem C10_digit_only_query_order_id_witness :
    pyIsDigit (pyStrip (str "12")) = true ∧
    (classify_intent_node (initState (str "12") [])).slots.order_id
      = some (pyStrip (str "12")) :=
  ⟨by decide, (C10_digit_only_query_order_id (str "12") [] (by decide)).1⟩

end AgentModel
